import Mathlib

/-!
Verification of the JSON Schema document generator in
`pkg/schema/jsonschema.go` (type `JSONSchemaDocument`, methods `AsDocument`
and `calculateProperties`).

The Go function `calculateProperties` walks a closed set of type-descriptor
nodes (`DocumentType`, `MapType`, `MapItemType`, `ArrayType`,
`ArrayItemType`, `ScalarType`, `NullType`, `AnyType`) and produces a
`yamlmeta.Map` of JSON-Schema keywords; `AsDocument` prepends the fixed
`$schema` / `$id` / `description` envelope.  Panics (the `default:` clause
and the `.(*ArrayItemType)` type assertion) are modelled with `Except`.

External collaborators that are not part of the given source are modelled
from the spec and are marked as such below: the documentation and
validation extractors (node -> ordered key/value entries) are modelled as
entry lists carried on each node, the scalar-kind-to-JSON-type-name map
`openAPITypeFor`, and the canonical key comparator behind
`sort.Sort(openAPIKeys(...))`.
-/

/-- A value in the output document tree (`yamlmeta` values: scalars,
maps, arrays).  Defaults carried on type nodes are also `Value`s; the Go
`nil` default is `Value.null`. -/
inductive Value where
  | str (s : String)
  | bool (b : Bool)
  | int (n : Int)
  | null
  | map (items : List (String × Value))
  | arr (elems : List Value)

/-- The items of a `yamlmeta.Map`: ordered key/value entries. -/
abbrev Entries := List (String × Value)

/-- Modelled from the spec: the scalar kinds of `ScalarType`
(string / integer / float / boolean); the concrete Go representation
(`ValueType interface{}`) is outside the given source. -/
inductive ScalarKind where
  | stringK | intK | floatK | boolK
deriving DecidableEq

mutual
/-- The closed set of type-descriptor nodes dispatched on by
`calculateProperties`.  The `docs`/`validations` entry lists model the
output of the external `collectDocumentation` / `convertValidations`
collaborators (modelled from the spec: node -> ordered, possibly empty,
key/value entry list).  `DocumentType` and `MapItemType` only have their
validations consumed, matching the Go clauses. -/
inductive TypeNode where
  | documentT (valueType : TypeNode) (validations : Entries)
  | mapT (docs validations : Entries) (fields : FieldList)
  | mapItemT (key : String) (validations : Entries) (valueType : TypeNode)
  | arrayT (docs validations : Entries) (defaultVal : Value) (valueType : TypeNode)
  | arrayItemT (docs validations : Entries) (valueType : TypeNode)
  | scalarT (docs validations : Entries) (defaultVal : Value) (kind : ScalarKind)
  | nullT (docs validations : Entries) (valueType : TypeNode)
  | anyT (docs validations : Entries) (defaultVal : Value)

/-- The `Items` field of a `MapType`: an ordered list of named fields,
each a `MapItemType` (key, validations, wrapped value type). -/
inductive FieldList where
  | nil
  | cons (key : String) (validations : Entries) (valueType : TypeNode) (rest : FieldList)
end

/-- Modelled from the spec: the canonical total order used by
`sort.Sort(openAPIKeys(result.Items))`.  The comparator itself is outside
the given source; the spec fixes only that it is one total, stable,
position-independent order over schema-keyword names (a fixed priority
list placing structural keywords first).  The ranks below follow the
keyword order visible in the spec scenarios (`type` before `format`
before `default`, `items`/`properties`/`additionalProperties` last). -/
def keyRank : String → Nat
  | "title" => 0
  | "description" => 1
  | "example" => 2
  | "type" => 3
  | "nullable" => 4
  | "format" => 5
  | "deprecated" => 6
  | "default" => 7
  | "minimum" => 8
  | "maximum" => 9
  | "minLength" => 10
  | "maxLength" => 11
  | "enum" => 12
  | "items" => 13
  | "properties" => 14
  | "additionalProperties" => 15
  | _ => 16

/-- The comparison relation on entries: compare the `keyRank` of the keys. -/
def keyLE (a b : String × Value) : Prop := keyRank a.1 ≤ keyRank b.1

instance : DecidableRel keyLE := fun _ _ => Nat.decLe _ _
instance : IsTotal (String × Value) keyLE := ⟨fun _ _ => Nat.le_total _ _⟩
instance : IsTrans (String × Value) keyLE := ⟨fun _ _ _ => Nat.le_trans⟩

/-- `sort.Sort(openAPIKeys(items))`, modelled as a stable sort under the
canonical comparator (the spec requires the order to be stable). -/
def sortKeys (es : Entries) : Entries := es.insertionSort keyLE

/-- An entry list sorted under the canonical comparator. -/
abbrev SortedEntries (es : Entries) : Prop := List.Sorted keyLE es

/-- The two distinct abort modes of `calculateProperties`: the
`default:` clause (`panic(fmt.Sprintf("Unrecognized type %T", ...))`)
and the bare `.(*ArrayItemType)` type-assertion failure in the
`ArrayType` clause. -/
inductive ConvErr where
  | unrecognized (variant : String)
  | downcast (variant : String)
deriving DecidableEq

/-- The Go `%T` name of each concrete variant, used in diagnostics. -/
def variantName : TypeNode → String
  | .documentT .. => "*schema.DocumentType"
  | .mapT .. => "*schema.MapType"
  | .mapItemT .. => "*schema.MapItemType"
  | .arrayT .. => "*schema.ArrayType"
  | .arrayItemT .. => "*schema.ArrayItemType"
  | .scalarT .. => "*schema.ScalarType"
  | .nullT .. => "*schema.NullType"
  | .anyT .. => "*schema.AnyType"

/-- Modelled from the spec: the scalar-kind-to-JSON-type-name mapping
(the external `openAPITypeFor` collaborator, total over all scalar
kinds). -/
def openAPITypeFor : ScalarKind → String
  | .stringK => "string"
  | .intK => "integer"
  | .floatK => "number"
  | .boolK => "boolean"

/-- The rewrite performed by the `NullType` clause on each entry of the
wrapped value type's computed object: a `type` entry's value `v` becomes
the two-element sequence `[v, "null"]`; every other entry is copied
through unchanged. -/
def nullWrap (p : String × Value) : String × Value :=
  if p.1 = "type" then ("type", .arr [p.2, .str "null"]) else p

/-- The fixed six-element `type` sequence emitted by the `AnyType`
clause. -/
def anyTypeValue : Value :=
  .arr [.str "null", .str "string", .str "number", .str "object", .str "array", .str "boolean"]

mutual
/-- `(*JSONSchemaDocument).calculateProperties`, clause by clause.  Go
panics are `Except.error`; each successful clause ends with
`sort.Sort(openAPIKeys(items))`, i.e. `sortKeys`. -/
def calculateProperties : TypeNode → Except ConvErr Entries
  | .documentT vt valids =>
      match calculateProperties vt with
      | .error e => .error e
      | .ok r => .ok (sortKeys (r ++ valids))
  | .mapT docs valids fields =>
      match calcFields fields with
      | .error e => .error e
      | .ok props =>
          .ok (sortKeys (docs ++ valids ++
            [("type", .str "object"), ("additionalProperties", .bool false),
             ("properties", .map props)]))
  | .mapItemT _key valids vt =>
      match calculateProperties vt with
      | .error e => .error e
      | .ok r => .ok (sortKeys (r ++ valids))
  | .arrayT docs valids dflt vt =>
      match vt with
      | .arrayItemT _idocs _ivalids inner =>
          match calculateProperties inner with
          | .error e => .error e
          | .ok props =>
              .ok (sortKeys (docs ++ valids ++
                [("type", .str "array"), ("default", dflt), ("items", .map props)]))
      | other => .error (.downcast (variantName other))
  | .scalarT docs valids dflt kind =>
      .ok (sortKeys (docs ++ valids ++
        [("default", dflt), ("type", .str (openAPITypeFor kind))] ++
        (if kind = .floatK then [("format", .str "float")] else [])))
  | .nullT docs valids vt =>
      match calculateProperties vt with
      | .error e => .error e
      | .ok props => .ok (sortKeys (docs ++ valids ++ props.map nullWrap))
  | .anyT docs valids dflt =>
      .ok (sortKeys (docs ++ valids ++ [("type", anyTypeValue), ("default", dflt)]))
  | .arrayItemT docs valids vt =>
      .error (.unrecognized (variantName (.arrayItemT docs valids vt)))

/-- The loop in the `MapType` clause: for each field `i`, emit
`{Key: i.Key, Value: calculateProperties(i)}` (the recursive call
dispatches to the `MapItemType` clause, inlined here; see
`calcFields_cons_eq`). -/
def calcFields : FieldList → Except ConvErr Entries
  | .nil => .ok []
  | .cons k valids vt rest =>
      match calculateProperties vt with
      | .error e => .error e
      | .ok r =>
          match calcFields rest with
          | .error e => .error e
          | .ok restP => .ok ((k, .map (sortKeys (r ++ valids))) :: restP)
end

/-- `(*JSONSchemaDocument).AsDocument`: compute the root properties and
prepend the fixed three-entry envelope, with no further sorting. -/
def asDocument (docType : TypeNode) : Except ConvErr Entries :=
  match calculateProperties docType with
  | .error e => .error e
  | .ok props =>
      .ok ([("$schema", Value.str "https://json-schema.org/draft/2020-12/schema"),
            ("$id", Value.str "https://example.biz/schema/ytt/data-values.json"),
            ("description", Value.str "Schema for data values, generated by ytt")] ++ props)

/-- Does a result carry a schema object (no abort)? -/
def calcSucceeds : Except ConvErr Entries → Bool
  | .ok _ => true
  | .error _ => false

/-- A `Value` that is a schema object with canonically sorted keys. -/
def isSortedMapValue : Value → Prop
  | .map es => SortedEntries es
  | _ => False

/-- A scalar (non-composite) value, as opposed to a nested map or
sequence. -/
def isScalarValue : Value → Bool
  | .map _ => false
  | .arr _ => false
  | _ => true

/-- Is the node an `ArrayItemType`?  (The `ArrayType` clause asserts its
wrapped value type down to `*ArrayItemType`.) -/
def isArrayItemNode : TypeNode → Bool
  | .arrayItemT .. => true
  | _ => false

mutual
/-- Inputs on which no clause of `calculateProperties` aborts: no
`ArrayItemType` is dispatched directly, and every `ArrayType` wraps an
`ArrayItemType`. -/
def WF : TypeNode → Bool
  | .documentT vt _ => WF vt
  | .mapT _ _ fields => WFFields fields
  | .mapItemT _ _ vt => WF vt
  | .arrayT _ _ _ vt =>
      match vt with
      | .arrayItemT _ _ inner => WF inner
      | _ => false
  | .arrayItemT .. => false
  | .scalarT .. => true
  | .nullT _ _ vt => WF vt
  | .anyT .. => true

/-- `WF` over the fields of a `MapType`. -/
def WFFields : FieldList → Bool
  | .nil => true
  | .cons _ _ vt rest => WF vt && WFFields rest
end

mutual
/-- The precondition of claim C10: every `ArrayType` node in the tree
wraps an `ArrayItemType` (nothing is assumed about where
`ArrayItemType` itself appears). -/
def arraysWrapItems : TypeNode → Bool
  | .documentT vt _ => arraysWrapItems vt
  | .mapT _ _ fields => fieldsArraysWrapItems fields
  | .mapItemT _ _ vt => arraysWrapItems vt
  | .arrayT _ _ _ vt =>
      match vt with
      | .arrayItemT _ _ inner => arraysWrapItems inner
      | _ => false
  | .arrayItemT _ _ vt => arraysWrapItems vt
  | .scalarT .. => true
  | .nullT _ _ vt => arraysWrapItems vt
  | .anyT .. => true

/-- `arraysWrapItems` over the fields of a `MapType`. -/
def fieldsArraysWrapItems : FieldList → Bool
  | .nil => true
  | .cons _ _ vt rest => arraysWrapItems vt && fieldsArraysWrapItems rest
end

/-- The field keys of a `MapType`, in declaration order. -/
def FieldList.keys : FieldList → List String
  | .nil => []
  | .cons k _ _ rest => k :: keys rest

/-- The fields of a `MapType` as a plain list of
(key, validations, value type) triples. -/
def FieldList.toList : FieldList → List (String × Entries × TypeNode)
  | .nil => []
  | .cons k valids vt rest => (k, valids, vt) :: toList rest

/-! ### Basic lemmas about the sorter -/

theorem sortKeys_sorted (es : Entries) : SortedEntries (sortKeys es) :=
  List.sorted_insertionSort keyLE es

theorem mem_sortKeys {p : String × Value} {es : Entries} : p ∈ sortKeys es ↔ p ∈ es :=
  List.mem_insertionSort keyLE

theorem sortKeys_eq_of_sorted {es : Entries} (h : SortedEntries es) : sortKeys es = es :=
  List.Sorted.insertionSort_eq h

theorem nullWrap_fst (p : String × Value) : (nullWrap p).1 = p.1 := by
  unfold nullWrap
  split
  · next h => exact h.symm
  · rfl

/-! ### Structural lemmas about `calculateProperties` -/

/-- Every successful result of `calculateProperties` is a `sortKeys`
image, hence sorted under the canonical comparator. -/
theorem calc_ok_sorted : ∀ {t : TypeNode} {out : Entries},
    calculateProperties t = .ok out → SortedEntries out := by
  intro t out h
  cases t with
  | documentT vt valids =>
      rw [calculateProperties] at h
      cases hv : calculateProperties vt <;> rw [hv] at h <;> simp at h
      exact h ▸ sortKeys_sorted _
  | mapT docs valids fields =>
      rw [calculateProperties] at h
      cases hv : calcFields fields <;> rw [hv] at h <;> simp at h
      exact h ▸ sortKeys_sorted _
  | mapItemT k valids vt =>
      rw [calculateProperties] at h
      cases hv : calculateProperties vt <;> rw [hv] at h <;> simp at h
      exact h ▸ sortKeys_sorted _
  | arrayT docs valids dflt vt =>
      cases vt with
      | arrayItemT idocs ivalids inner =>
          rw [calculateProperties] at h
          cases hv : calculateProperties inner <;> rw [hv] at h <;> simp at h
          exact h ▸ sortKeys_sorted _
      | _ => rw [calculateProperties.eq_def] at h ; simp at h
  | arrayItemT docs valids vt => simp [calculateProperties] at h
  | scalarT docs valids dflt kind =>
      rw [calculateProperties] at h
      simp at h
      exact h ▸ sortKeys_sorted _
  | nullT docs valids vt =>
      rw [calculateProperties] at h
      cases hv : calculateProperties vt <;> rw [hv] at h <;> simp at h
      exact h ▸ sortKeys_sorted _
  | anyT docs valids dflt =>
      rw [calculateProperties] at h
      simp at h
      exact h ▸ sortKeys_sorted _

mutual
theorem calc_wf_succeeds : ∀ t : TypeNode, WF t = true → calcSucceeds (calculateProperties t) = true
  | .documentT vt valids, h => by
      have ih := calc_wf_succeeds vt (by rw [WF] at h; exact h)
      rw [calculateProperties]
      cases hv : calculateProperties vt with
      | error e => rw [hv] at ih; simp [calcSucceeds] at ih
      | ok r => simp [calcSucceeds]
  | .mapT docs valids fields, h => by
      have ih := calcFields_wf_succeeds fields (by rw [WF] at h; exact h)
      rw [calculateProperties]
      cases hv : calcFields fields with
      | error e => rw [hv] at ih; simp [calcSucceeds] at ih
      | ok r => simp [calcSucceeds]
  | .mapItemT k valids vt, h => by
      have ih := calc_wf_succeeds vt (by rw [WF] at h; exact h)
      rw [calculateProperties]
      cases hv : calculateProperties vt with
      | error e => rw [hv] at ih; simp [calcSucceeds] at ih
      | ok r => simp [calcSucceeds]
  | .arrayT docs valids dflt (.arrayItemT idocs ivalids inner), h => by
      have ih := calc_wf_succeeds inner (by rw [WF] at h; exact h)
      rw [calculateProperties]
      cases hv : calculateProperties inner with
      | error e => rw [hv] at ih; simp [calcSucceeds] at ih
      | ok r => simp [calcSucceeds]
  | .arrayT docs valids dflt (.documentT a b), h => by rw [WF.eq_def] at h; simp at h
  | .scalarT docs valids dflt kind, _h => by rw [calculateProperties]; simp [calcSucceeds]
  | .nullT docs valids vt, h => by
      have ih := calc_wf_succeeds vt (by rw [WF] at h; exact h)
      rw [calculateProperties]
      cases hv : calculateProperties vt with
      | error e => rw [hv] at ih; simp [calcSucceeds] at ih
      | ok r => simp [calcSucceeds]
  | .anyT docs valids dflt, _h => by rw [calculateProperties]; simp [calcSucceeds]
  | .arrayItemT docs valids vt, h => by rw [WF] at h; exact absurd h (by simp)
  | .arrayT docs valids dflt (.mapT a b c), h => by rw [WF.eq_def] at h; simp at h
  | .arrayT docs valids dflt (.mapItemT a b c), h => by rw [WF.eq_def] at h; simp at h
  | .arrayT docs valids dflt (.arrayT a b c d), h => by rw [WF.eq_def] at h; simp at h
  | .arrayT docs valids dflt (.scalarT a b c d), h => by rw [WF.eq_def] at h; simp at h
  | .arrayT docs valids dflt (.nullT a b c), h => by rw [WF.eq_def] at h; simp at h
  | .arrayT docs valids dflt (.anyT a b c), h => by rw [WF.eq_def] at h; simp at h

theorem calcFields_wf_succeeds : ∀ fs : FieldList, WFFields fs = true → calcSucceeds (calcFields fs) = true
  | .nil, _h => by rw [calcFields]; simp [calcSucceeds]
  | .cons k valids vt rest, h => by
      rw [WFFields] at h
      have h1 : WF vt = true := by
        have := Bool.and_eq_true_iff.mp h
        exact this.1
      have h2 : WFFields rest = true := by
        have := Bool.and_eq_true_iff.mp h
        exact this.2
      have ih1 := calc_wf_succeeds vt h1
      have ih2 := calcFields_wf_succeeds rest h2
      rw [calcFields]
      cases hv : calculateProperties vt with
      | error e => rw [hv] at ih1; simp [calcSucceeds] at ih1
      | ok r =>
          cases hr : calcFields rest with
          | error e => rw [hr] at ih2; simp [calcSucceeds] at ih2
          | ok restP => simp [calcSucceeds]
end

mutual
theorem calc_no_downcast : ∀ t : TypeNode, arraysWrapItems t = true →
    ∀ s, calculateProperties t ≠ .error (.downcast s)
  | .documentT vt valids, h => by
      have ih := calc_no_downcast vt (by rw [arraysWrapItems] at h; exact h)
      intro s hc
      rw [calculateProperties] at hc
      cases hv : calculateProperties vt with
      | error e =>
          rw [hv] at hc
          simp at hc
          exact ih s (hc ▸ hv)
      | ok r => rw [hv] at hc; simp at hc
  | .mapT docs valids fields, h => by
      have ih := calcFields_no_downcast fields (by rw [arraysWrapItems] at h; exact h)
      intro s hc
      rw [calculateProperties] at hc
      cases hv : calcFields fields with
      | error e =>
          rw [hv] at hc
          simp at hc
          exact ih s (hc ▸ hv)
      | ok r => rw [hv] at hc; simp at hc
  | .mapItemT k valids vt, h => by
      have ih := calc_no_downcast vt (by rw [arraysWrapItems] at h; exact h)
      intro s hc
      rw [calculateProperties] at hc
      cases hv : calculateProperties vt with
      | error e =>
          rw [hv] at hc
          simp at hc
          exact ih s (hc ▸ hv)
      | ok r => rw [hv] at hc; simp at hc
  | .arrayT docs valids dflt (.arrayItemT idocs ivalids inner), h => by
      have ih := calc_no_downcast inner (by rw [arraysWrapItems] at h; exact h)
      intro s hc
      rw [calculateProperties] at hc
      cases hv : calculateProperties inner with
      | error e =>
          rw [hv] at hc
          simp at hc
          exact ih s (hc ▸ hv)
      | ok r => rw [hv] at hc; simp at hc
  | .arrayT docs valids dflt (.documentT a b), h => by rw [arraysWrapItems.eq_def] at h; simp at h
  | .arrayT docs valids dflt (.mapT a b c), h => by rw [arraysWrapItems.eq_def] at h; simp at h
  | .arrayT docs valids dflt (.mapItemT a b c), h => by rw [arraysWrapItems.eq_def] at h; simp at h
  | .arrayT docs valids dflt (.arrayT a b c d), h => by rw [arraysWrapItems.eq_def] at h; simp at h
  | .arrayT docs valids dflt (.scalarT a b c d), h => by rw [arraysWrapItems.eq_def] at h; simp at h
  | .arrayT docs valids dflt (.nullT a b c), h => by rw [arraysWrapItems.eq_def] at h; simp at h
  | .arrayT docs valids dflt (.anyT a b c), h => by rw [arraysWrapItems.eq_def] at h; simp at h
  | .arrayItemT docs valids vt, _h => by
      intro s hc
      rw [calculateProperties] at hc
      simp [variantName] at hc
  | .scalarT docs valids dflt kind, _h => by
      intro s hc
      rw [calculateProperties] at hc
      simp at hc
  | .nullT docs valids vt, h => by
      have ih := calc_no_downcast vt (by rw [arraysWrapItems] at h; exact h)
      intro s hc
      rw [calculateProperties] at hc
      cases hv : calculateProperties vt with
      | error e =>
          rw [hv] at hc
          simp at hc
          exact ih s (hc ▸ hv)
      | ok r => rw [hv] at hc; simp at hc
  | .anyT docs valids dflt, _h => by
      intro s hc
      rw [calculateProperties] at hc
      simp at hc

theorem calcFields_no_downcast : ∀ fs : FieldList, fieldsArraysWrapItems fs = true →
    ∀ s, calcFields fs ≠ .error (.downcast s)
  | .nil, _h => by
      intro s hc
      rw [calcFields] at hc
      simp at hc
  | .cons k valids vt rest, h => by
      rw [fieldsArraysWrapItems] at h
      have h1 : arraysWrapItems vt = true := (Bool.and_eq_true_iff.mp h).1
      have h2 : fieldsArraysWrapItems rest = true := (Bool.and_eq_true_iff.mp h).2
      have ih1 := calc_no_downcast vt h1
      have ih2 := calcFields_no_downcast rest h2
      intro s hc
      rw [calcFields] at hc
      cases hv : calculateProperties vt with
      | error e =>
          rw [hv] at hc
          simp at hc
          exact ih1 s (hc ▸ hv)
      | ok r =>
          rw [hv] at hc
          cases hr : calcFields rest with
          | error e =>
              rw [hr] at hc
              simp at hc
              exact ih2 s (hc ▸ hr)
          | ok restP => rw [hr] at hc; simp at hc
end

/-- Fidelity of the inlined field loop: the value computed for each
field equals `calculateProperties` applied to the field as a
`MapItemType` node (the dispatch the Go loop performs). -/
theorem calcFields_cons_eq (k : String) (valids : Entries) (vt : TypeNode) (rest : FieldList) :
    calcFields (.cons k valids vt rest) =
      match calculateProperties (.mapItemT k valids vt) with
      | .error e => .error e
      | .ok e =>
          match calcFields rest with
          | .error e2 => .error e2
          | .ok restP => .ok ((k, Value.map e) :: restP) := by
  rw [calcFields, calculateProperties]
  cases hv : calculateProperties vt <;> simp

/-- Shape of a successful field loop: keys in declaration order, and
every produced value is a schema object sorted under the canonical
comparator. -/
theorem calcFields_ok_shape : ∀ (fs : FieldList) {props : Entries},
    calcFields fs = .ok props →
    props.map Prod.fst = FieldList.keys fs ∧ props.Forall (fun p => isSortedMapValue p.2)
  | .nil, props, h => by
      rw [calcFields] at h
      simp at h
      subst h
      simp [FieldList.keys, List.Forall]
  | .cons k valids vt rest, props, h => by
      rw [calcFields] at h
      cases hv : calculateProperties vt <;> rw [hv] at h <;> simp at h
      cases hr : calcFields rest <;> rw [hr] at h <;> simp at h
      obtain ⟨hkeys, hforall⟩ := calcFields_ok_shape rest hr
      subst h
      refine ⟨by simp [FieldList.keys, hkeys], ?_⟩
      rw [List.forall_cons]
      exact ⟨by simp [isSortedMapValue]; exact sortKeys_sorted _, hforall⟩

/-- A successful field loop pairs the declared fields, in order, with
exactly the result of converting each field through the `MapItemType`
clause. -/
theorem calcFields_ok_fields : ∀ (fs : FieldList) {props : Entries},
    calcFields fs = .ok props →
    List.Forall₂ (fun (f : String × Entries × TypeNode) (p : String × Value) =>
        p.1 = f.1 ∧
        Except.map Value.map (calculateProperties (.mapItemT f.1 f.2.1 f.2.2)) = .ok p.2)
      fs.toList props
  | .nil, props, h => by
      rw [calcFields] at h
      simp at h
      subst h
      rw [FieldList.toList]
      exact List.Forall₂.nil
  | .cons k valids vt rest, props, h => by
      rw [calcFields] at h
      cases hv : calculateProperties vt <;> rw [hv] at h <;> simp at h
      cases hr : calcFields rest <;> rw [hr] at h <;> simp at h
      have ih := calcFields_ok_fields rest hr
      subst h
      refine List.Forall₂.cons ⟨rfl, ?_⟩ ih
      rw [calculateProperties, hv]
      rfl

/-! ### Claims -/

/-- C1, counterexample: the `NullType` clause rewrites the `type` entry
even when its value is not scalar.  For `T = Any`, `Convert(T)` has the
six-element sequence as its `type` value (not a scalar), so the claim
says `Convert(Null(T))` equals `Convert(T)`; the code instead wraps the
sequence into `[sequence, "null"]`, so the two outputs differ. -/
theorem nullType_nonscalar_type_counterexample :
    calculateProperties (.anyT [] [] .null) = .ok [("type", anyTypeValue), ("default", .null)] ∧
    isScalarValue anyTypeValue = false ∧
    calculateProperties (.nullT [] [] (.anyT [] [] .null)) =
      .ok [("type", .arr [anyTypeValue, .str "null"]), ("default", .null)] ∧
    ([("type", Value.arr [anyTypeValue, .str "null"]), ("default", Value.null)] : Entries) ≠
      [("type", anyTypeValue), ("default", Value.null)] := by
  refine ⟨rfl, rfl, rfl, ?_⟩
  simp [anyTypeValue]

/-- C1, amended: for every type node `T`, `Convert` of a bare `Null`
wrapper around `T` equals `Convert(T)` with every `type` entry's value
`v` — scalar or not — replaced by the two-element sequence
`[v, "null"]`; every other entry is carried through unchanged, no other
keys appear, and the key list is unchanged. -/
theorem nullType_rewrites_type_entry (t : TypeNode) (props : Entries)
    (h : calculateProperties t = .ok props) :
    calculateProperties (.nullT [] [] t) = .ok (props.map nullWrap) ∧
    (props.map nullWrap).map Prod.fst = props.map Prod.fst := by
  have hs : SortedEntries props := calc_ok_sorted h
  have hmap : SortedEntries (props.map nullWrap) := by
    refine List.Pairwise.map nullWrap ?_ hs
    intro a b hab
    unfold keyLE at hab ⊢
    rw [nullWrap_fst, nullWrap_fst]
    exact hab
  refine ⟨?_, ?_⟩
  · rw [calculateProperties, h]
    simp only [List.nil_append]
    rw [sortKeys_eq_of_sorted hmap]
  · rw [List.map_map]
    exact List.map_congr_left fun a _ => nullWrap_fst a

/-- C1, witness for the amended theorem at `T = Scalar(integer, 0)`. -/
theorem nullType_rewrites_type_entry_witness :
    calculateProperties (.nullT [] [] (.scalarT [] [] (.int 0) .intK)) =
      .ok (([("type", Value.str "integer"), ("default", Value.int 0)] : Entries).map nullWrap) ∧
    (([("type", Value.str "integer"), ("default", Value.int 0)] : Entries).map nullWrap).map Prod.fst =
      ([("type", Value.str "integer"), ("default", Value.int 0)] : Entries).map Prod.fst :=
  nullType_rewrites_type_entry _ _ rfl

/-- C2, counterexample: the object stored under the `properties` key is
not passed through the key sorter; its entries stay in field declaration
order.  Declaring fields named `default` and `type` in that order yields
a `properties` object whose keys are not sorted under the canonical
comparator. -/
theorem properties_object_not_sorted_counterexample :
    calculateProperties (.mapT [] [] (.cons "default" [] (.scalarT [] [] (.str "") .stringK)
        (.cons "type" [] (.scalarT [] [] (.str "") .stringK) .nil))) =
      .ok [("type", .str "object"),
           ("properties", .map [("default", .map [("type", .str "string"), ("default", .str "")]),
                                ("type", .map [("type", .str "string"), ("default", .str "")])]),
           ("additionalProperties", .bool false)] ∧
    ¬ SortedEntries [("default", Value.map [("type", Value.str "string"), ("default", Value.str "")]),
                     ("type", Value.map [("type", Value.str "string"), ("default", Value.str "")])] :=
  ⟨rfl, by decide⟩

/-- C2, amended: every schema object returned by `calculateProperties`
has its keys sorted under the canonical comparator, and every value in
the `properties` object is itself a sorted schema object — but the
`properties` object itself keeps its keys in field declaration order,
unsorted. -/
theorem calc_schema_objects_sorted :
    (∀ (t : TypeNode) (out : Entries), calculateProperties t = .ok out → SortedEntries out) ∧
    (∀ (fs : FieldList) (props : Entries), calcFields fs = .ok props →
      props.map Prod.fst = FieldList.keys fs ∧ props.Forall (fun p => isSortedMapValue p.2)) :=
  ⟨fun _ _ h => calc_ok_sorted h, fun fs _ h => calcFields_ok_shape fs h⟩

/-- C2, witness for the amended theorem at a one-field map. -/
theorem calc_schema_objects_sorted_witness :
    SortedEntries [("type", Value.str "string"), ("default", Value.str "")] ∧
    (([("name", Value.map [("type", Value.str "string"), ("default", Value.str "")])] : Entries).map Prod.fst =
        FieldList.keys (.cons "name" [] (.scalarT [] [] (.str "") .stringK) .nil) ∧
      ([("name", Value.map [("type", Value.str "string"), ("default", Value.str "")])] : Entries).Forall
        (fun p => isSortedMapValue p.2)) :=
  ⟨calc_schema_objects_sorted.1 (.scalarT [] [] (.str "") .stringK) _ rfl,
   calc_schema_objects_sorted.2 (.cons "name" [] (.scalarT [] [] (.str "") .stringK) .nil) _ rfl⟩

/-- C3, counterexample: a scalar node whose default value is unset
(Go `nil`, modelled as `Value.null`) still yields a `default` key — the
clause appends `GetDefaultValue()` unconditionally — contradicting the
claim that an unset default yields an object with no `default` key. -/
theorem unset_default_still_emitted_counterexample :
    calculateProperties (.scalarT [] [] Value.null .stringK) =
      .ok [("type", Value.str "string"), ("default", Value.null)] ∧
    ("default", Value.null) ∈ ([("type", Value.str "string"), ("default", Value.null)] : Entries) :=
  ⟨rfl, by simp⟩

/-- C3, amended: missing documentation and missing validations are
handled by omitting the corresponding keys (an empty extractor output
contributes nothing), but the `default` key is always emitted by the
Scalar, Any and Array clauses, whatever the default value — an unset
default appears as `default` mapped to null rather than being omitted. -/
theorem absence_omits_keys_default_always_emitted :
    (∀ d : Value, calculateProperties (.scalarT [] [] d .stringK) =
      .ok [("type", .str "string"), ("default", d)]) ∧
    (∀ d : Value, calculateProperties (.scalarT [] [] d .intK) =
      .ok [("type", .str "integer"), ("default", d)]) ∧
    (∀ d : Value, calculateProperties (.scalarT [] [] d .floatK) =
      .ok [("type", .str "number"), ("format", .str "float"), ("default", d)]) ∧
    (∀ d : Value, calculateProperties (.scalarT [] [] d .boolK) =
      .ok [("type", .str "boolean"), ("default", d)]) ∧
    (∀ d : Value, calculateProperties (.anyT [] [] d) =
      .ok [("type", anyTypeValue), ("default", d)]) ∧
    (∀ (d : Value) (t : TypeNode) (out : Entries), calculateProperties t = .ok out →
      calculateProperties (.arrayT [] [] d (.arrayItemT [] [] t)) =
        .ok [("type", .str "array"), ("default", d), ("items", .map out)]) := by
  refine ⟨fun _ => rfl, fun _ => rfl, fun _ => rfl, fun _ => rfl, fun _ => rfl, ?_⟩
  intro d t out h
  rw [calculateProperties, h]
  rfl

/-- C3, witness for the amended theorem: an array of integers with
default `[]` (and an unset-scalar default inside would behave the
same). -/
theorem absence_omits_keys_default_always_emitted_witness :
    calculateProperties (.arrayT [] [] (Value.arr [])
        (.arrayItemT [] [] (.scalarT [] [] (Value.int 0) .intK))) =
      .ok [("type", Value.str "array"), ("default", Value.arr []),
           ("items", Value.map [("type", Value.str "integer"), ("default", Value.int 0)])] :=
  absence_omits_keys_default_always_emitted.2.2.2.2.2 (Value.arr []) _ _ rfl

/-- C4: for every `Map` node, the output contains `type` = "object",
`additionalProperties` = false, and a `properties` entry whose object
has exactly the declared field keys in declaration order, each mapped to
`calculateProperties` of the corresponding field as a `MapItemType`
(which merges the field's own validations in). -/
theorem mapType_schema (docs valids : Entries) (fields : FieldList) (out props : Entries)
    (h : calculateProperties (.mapT docs valids fields) = .ok out)
    (hp : calcFields fields = .ok props) :
    ("type", Value.str "object") ∈ out ∧
    ("additionalProperties", Value.bool false) ∈ out ∧
    ("properties", Value.map props) ∈ out ∧
    props.map Prod.fst = FieldList.keys fields ∧
    List.Forall₂ (fun (f : String × Entries × TypeNode) (p : String × Value) =>
        p.1 = f.1 ∧
        Except.map Value.map (calculateProperties (.mapItemT f.1 f.2.1 f.2.2)) = .ok p.2)
      fields.toList props := by
  rw [calculateProperties, hp] at h
  simp at h
  subst h
  refine ⟨?_, ?_, ?_, (calcFields_ok_shape fields hp).1, calcFields_ok_fields fields hp⟩
  all_goals exact mem_sortKeys.mpr (by simp)

/-- C4, witness at the map `{name: Scalar(string, default="")}`
(spec scenario A). -/
theorem mapType_schema_witness :
    ("type", Value.str "object") ∈
      ([("type", Value.str "object"),
        ("properties", Value.map [("name", Value.map [("type", Value.str "string"), ("default", Value.str "")])]),
        ("additionalProperties", Value.bool false)] : Entries) ∧
    ("additionalProperties", Value.bool false) ∈
      ([("type", Value.str "object"),
        ("properties", Value.map [("name", Value.map [("type", Value.str "string"), ("default", Value.str "")])]),
        ("additionalProperties", Value.bool false)] : Entries) ∧
    ("properties", Value.map [("name", Value.map [("type", Value.str "string"), ("default", Value.str "")])]) ∈
      ([("type", Value.str "object"),
        ("properties", Value.map [("name", Value.map [("type", Value.str "string"), ("default", Value.str "")])]),
        ("additionalProperties", Value.bool false)] : Entries) ∧
    ([("name", Value.map [("type", Value.str "string"), ("default", Value.str "")])] : Entries).map Prod.fst =
      FieldList.keys (.cons "name" [] (.scalarT [] [] (.str "") .stringK) .nil) ∧
    List.Forall₂ (fun (f : String × Entries × TypeNode) (p : String × Value) =>
        p.1 = f.1 ∧
        Except.map Value.map (calculateProperties (.mapItemT f.1 f.2.1 f.2.2)) = .ok p.2)
      (FieldList.toList (.cons "name" [] (.scalarT [] [] (.str "") .stringK) .nil))
      [("name", Value.map [("type", Value.str "string"), ("default", Value.str "")])] :=
  mapType_schema [] [] _ _ _ rfl rfl

/-- C5: for every scalar kind and default value `d`, the output contains
`type` = the mapped JSON primitive name, `default` = `d`, and contains
`format` = "float" exactly when the kind is the floating-point kind. -/
theorem scalarType_schema (kind : ScalarKind) (d : Value) :
    ∃ out, calculateProperties (.scalarT [] [] d kind) = .ok out ∧
      ("type", Value.str (openAPITypeFor kind)) ∈ out ∧
      ("default", d) ∈ out ∧
      (("format", Value.str "float") ∈ out ↔ kind = .floatK) := by
  cases kind <;>
    exact ⟨_, rfl, by simp [mem_sortKeys, openAPITypeFor], by simp [mem_sortKeys],
      by simp [mem_sortKeys]⟩

/-- C6: for every `Any` node, whatever its documentation, validations
and default value, the output contains a `type` entry whose value is
exactly the six-element sequence
`["null","string","number","object","array","boolean"]`. -/
theorem anyType_schema (docs valids : Entries) (d : Value) :
    ∃ out, calculateProperties (.anyT docs valids d) = .ok out ∧
      ("type", anyTypeValue) ∈ out ∧
      anyTypeValue = .arr [.str "null", .str "string", .str "number",
                           .str "object", .str "array", .str "boolean"] := by
  refine ⟨_, rfl, ?_, rfl⟩
  exact mem_sortKeys.mpr (by simp)

/-- C7: `AsDocument` output is exactly the three fixed envelope entries
`$schema`, `$id`, `description`, in that literal order, followed by the
root schema object, which is itself canonically sorted; no sorting is
applied after the envelope is prepended. -/
theorem asDocument_envelope (t : TypeNode) (props : Entries)
    (h : calculateProperties t = .ok props) :
    asDocument t =
      .ok ([("$schema", Value.str "https://json-schema.org/draft/2020-12/schema"),
            ("$id", Value.str "https://example.biz/schema/ytt/data-values.json"),
            ("description", Value.str "Schema for data values, generated by ytt")] ++ props) ∧
    SortedEntries props := by
  refine ⟨?_, calc_ok_sorted h⟩
  rw [asDocument, h]

/-- C7, witness at the document wrapping an `Any` node. -/
theorem asDocument_envelope_witness :
    asDocument (.documentT (.anyT [] [] Value.null) []) =
      .ok ([("$schema", Value.str "https://json-schema.org/draft/2020-12/schema"),
            ("$id", Value.str "https://example.biz/schema/ytt/data-values.json"),
            ("description", Value.str "Schema for data values, generated by ytt")] ++
           [("type", anyTypeValue), ("default", Value.null)]) ∧
    SortedEntries [("type", anyTypeValue), ("default", Value.null)] :=
  asDocument_envelope _ _ rfl

/-- C8: the only variant outside the recognized dispatch set,
`ArrayItemType`, aborts immediately with the unrecognized-variant
diagnostic naming the concrete variant and produces no partial output;
on every input whose dispatched nodes all belong to the recognized set
(`WF`), no abort happens and a full schema object is produced. -/
theorem unrecognized_variant_aborts :
    (∀ (docs valids : Entries) (vt : TypeNode),
      calculateProperties (.arrayItemT docs valids vt) =
        .error (.unrecognized "*schema.ArrayItemType")) ∧
    (∀ t : TypeNode, WF t = true → calcSucceeds (calculateProperties t) = true) :=
  ⟨fun _ _ _ => rfl, calc_wf_succeeds⟩

/-- C8, witness: a directly passed `ArrayItemType` aborts; a recognized
node succeeds. -/
theorem unrecognized_variant_aborts_witness :
    calculateProperties (.arrayItemT [] [] (.anyT [] [] Value.null)) =
      .error (.unrecognized "*schema.ArrayItemType") ∧
    calcSucceeds (calculateProperties (.anyT [] [] Value.null)) = true :=
  ⟨unrecognized_variant_aborts.1 [] [] _, unrecognized_variant_aborts.2 _ rfl⟩

/-- C9: an `ArrayItemType` passed directly to `calculateProperties`
takes the unrecognized-variant abort, and the `ArrayType` clause
recurses directly into the `ArrayItemType`'s inner value type, so the
documentation and validation entries attached to the `ArrayItemType`
itself never influence the output. -/
theorem arrayItem_only_consumed_inside_array :
    (∀ (docs valids : Entries) (vt : TypeNode),
      calculateProperties (.arrayItemT docs valids vt) =
        .error (.unrecognized "*schema.ArrayItemType")) ∧
    (∀ (docs valids : Entries) (d : Value) (idocs ivalids : Entries) (inner : TypeNode),
      calculateProperties (.arrayT docs valids d (.arrayItemT idocs ivalids inner)) =
        calculateProperties (.arrayT docs valids d (.arrayItemT [] [] inner))) :=
  ⟨fun _ _ _ => rfl, fun _ _ _ _ _ _ => rfl⟩

/-- C10: under the precondition that every `Array` node in the tree
wraps an `ArrayItemType`, the type-assertion failure branch is
unreachable (no downcast abort is ever produced); for any `Array` whose
wrapped value type is not an `ArrayItemType`, the call aborts with a
bare type-assertion failure, an abort distinct from the
unrecognized-variant diagnostic. -/
theorem array_downcast_behavior :
    (∀ t : TypeNode, arraysWrapItems t = true →
      ∀ s, calculateProperties t ≠ .error (.downcast s)) ∧
    (∀ (docs valids : Entries) (d : Value) (vt : TypeNode), isArrayItemNode vt = false →
      calculateProperties (.arrayT docs valids d vt) = .error (.downcast (variantName vt))) ∧
    (∀ s u, ConvErr.downcast s ≠ ConvErr.unrecognized u) := by
  refine ⟨calc_no_downcast, ?_, fun s u h => by cases h⟩
  intro docs valids d vt hvt
  cases vt with
  | arrayItemT a b c => simp [isArrayItemNode] at hvt
  | documentT a b => rw [calculateProperties.eq_def]
  | mapT a b c => rw [calculateProperties.eq_def]
  | mapItemT a b c => rw [calculateProperties.eq_def]
  | arrayT a b c dd => rw [calculateProperties.eq_def]
  | scalarT a b c dd => rw [calculateProperties.eq_def]
  | nullT a b c => rw [calculateProperties.eq_def]
  | anyT a b c => rw [calculateProperties.eq_def]

/-- C10, witness: a well-formed array takes no downcast abort; an array
wrapping a scalar aborts with the downcast failure, which differs from
the unrecognized-variant error. -/
theorem array_downcast_behavior_witness :
    calculateProperties (.arrayT [] [] Value.null
        (.arrayItemT [] [] (.scalarT [] [] Value.null .stringK))) ≠
      .error (.downcast "*schema.ScalarType") ∧
    calculateProperties (.arrayT [] [] Value.null (.scalarT [] [] Value.null .stringK)) =
      .error (.downcast "*schema.ScalarType") ∧
    ConvErr.downcast "x" ≠ ConvErr.unrecognized "x" :=
  ⟨array_downcast_behavior.1
      (.arrayT [] [] Value.null (.arrayItemT [] [] (.scalarT [] [] Value.null .stringK)))
      rfl "*schema.ScalarType",
   array_downcast_behavior.2.1 [] [] Value.null (.scalarT [] [] Value.null .stringK) rfl,
   array_downcast_behavior.2.2 "x" "x"⟩
